import Mathlib

/-!
Shallow embedding of the EMR cluster-topology migration engine and the
savings estimator from `spark_rapids_pytools/cloud_api/emr.py`.

Python strings that may be `None` are modelled as `Option String`; Python
dictionaries as association lists with insertion-order preserving update,
matching CPython's dict semantics; code paths that raise are modelled as
`Option`-valued functions returning `none`.
-/

/-- Abstract node role, `SparkNodeType` in `sp_types.py` (master/worker). -/
inductive SparkNodeType where
  | master
  | worker
deriving DecidableEq, Repr

/-- Cluster lifecycle state, `ClusterState` in `sp_types.py`. -/
inductive ClusterState where
  | starting
  | bootstrapping
  | waiting
  | running
  | terminated
  | pending
  | unknown
deriving DecidableEq, Repr

/-- Python's `str.upper()` on the label strings used here (character-wise
uppercasing). -/
def pyUpper (s : String) : String :=
  String.mk (s.data.map Char.toUpper)

/-- Modelled from the spec: `SparkNodeType.fromstring` lives in
`sp_types.py`, which is not part of the sources here.  The spec's Role
Classifier maps a small closed set of label variants denoting the primary
control node to `master` and every other label to `worker`. -/
def SparkNodeType.fromstring (value : String) : SparkNodeType :=
  if pyUpper value = "MASTER" then SparkNodeType.master else SparkNodeType.worker

namespace EMRPlatform

/-- `EMRPlatform.get_spark_node_type_fromstring`: TASK and CORE labels are
worker groups; everything else is delegated to `SparkNodeType.fromstring`. -/
def get_spark_node_type_fromstring (value : String) : SparkNodeType :=
  if pyUpper value ∈ (["TASK", "CORE"] : List String) then SparkNodeType.worker
  else SparkNodeType.fromstring value

end EMRPlatform

/-- `InstanceGroup` dataclass: one EMR instance group. -/
structure InstanceGroup where
  id : String
  instance_type : Option String
  count : Nat
  market : String
  group_type : String
deriving DecidableEq, Repr

/-- `InstanceGroup.spark_grp_type`, set by `__post_init__` as a pure function
of the raw group-type label. -/
def InstanceGroup.spark_grp_type (g : InstanceGroup) : SparkNodeType :=
  EMRPlatform.get_spark_node_type_fromstring g.group_type

/-- `Ec2Instance` dataclass: one EC2 instance, holding a reference to its
owning group. -/
structure Ec2Instance where
  id : String
  ec2_instance_id : String
  dns_name : Option String
  group : InstanceGroup
  state : ClusterState
deriving DecidableEq, Repr

/-- `EMRNode`: a role-tagged view over one EC2 instance.  `node_type` is set
by `create_node` from the instance's group role. -/
structure EMRNode where
  node_type : SparkNodeType
  ec2_instance : Ec2Instance
deriving DecidableEq, Repr

/-- `EMRNode._set_fields_from_props` sets the node's instance type from the
owning group. -/
def EMRNode.instType (n : EMRNode) : Option String :=
  n.ec2_instance.group.instance_type

/-- The node view `self.nodes`: worker nodes list plus the single master node
(`master_nodes[0]`). -/
structure Nodes where
  workers : List EMRNode
  master : EMRNode
deriving DecidableEq, Repr

/-- `EMRCluster` state after `_init_nodes` / `migrate_from_cluster`. -/
structure EMRCluster where
  name : Option String
  uuid : Option String
  zone : Option String
  state : ClusterState
  instance_groups : List InstanceGroup
  ec2_instances : List Ec2Instance
  nodes : Nodes
deriving DecidableEq, Repr

/-! ### Python dict operations, as insertion-ordered association lists -/

/-- Python `d[k]` / `d.get(k)`: the value stored at `k`, if any. -/
def alookup {α β : Type} [DecidableEq α] : List (α × β) → α → Option β
  | [], _ => none
  | (k, v) :: rest, key => if k = key then some v else alookup rest key

/-- Python `d[k] = v` / `d.update({k: v})`: replace in place or append. -/
def aupdate {α β : Type} [DecidableEq α] : List (α × β) → α → β → List (α × β)
  | [], k, v => [(k, v)]
  | (k0, v0) :: rest, k, v =>
    if k0 = k then (k0, v) :: rest else (k0, v0) :: aupdate rest k v

/-- Python `d.get(k, default)`. -/
def agetD {α β : Type} [DecidableEq α] (m : List (α × β)) (k : α) (d : β) : β :=
  (alookup m k).getD d

/-! ### `EMRCluster.find_matches_for_node`

The loop iterates the node view; master nodes are skipped; each worker node
whose instance type is not yet a key of `mc_map` is submitted to the external
matcher `find_best_cpu_conversion` and the result recorded.  The matcher is
abstract here: a function from the node to an optional replacement type.  In
addition to the resulting map we record the list of nodes actually submitted
to the matcher, in submission order. -/

def findMatchesAux (matcher : EMRNode → Option String) :
    List EMRNode → List (Option String × Option String) →
    List (Option String × Option String) × List EMRNode
  | [], acc => (acc, [])
  | n :: rest, acc =>
    if (alookup acc n.instType).isSome then
      findMatchesAux matcher rest acc
    else
      let r := findMatchesAux matcher rest (aupdate acc n.instType (matcher n))
      (r.1, n :: r.2)

/-- `EMRCluster.find_matches_for_node`: the memoized instance-type map. -/
def EMRCluster.find_matches_for_node (c : EMRCluster)
    (matcher : EMRNode → Option String) : List (Option String × Option String) :=
  (findMatchesAux matcher c.nodes.workers []).1

/-- The nodes submitted to `find_best_cpu_conversion` during
`find_matches_for_node`, in order. -/
def EMRCluster.matcherCallLog (c : EMRCluster)
    (matcher : EMRNode → Option String) : List EMRNode :=
  (findMatchesAux matcher c.nodes.workers []).2

/-! ### `EMRCluster.migrate_from_cluster` -/

/-- The per-group conversion inside the group loop of
`migrate_from_cluster`: master groups are carried over; a worker group whose
resolved type (`mc_type_map.get(t, t)`) equals its current type is carried
over; otherwise a new group is built with the new type. -/
def convertGroup (mc_map : List (Option String × Option String))
    (g : InstanceGroup) : InstanceGroup :=
  if g.spark_grp_type = SparkNodeType.master then g
  else
    let new_instance_type := agetD mc_map g.instance_type g.instance_type
    if new_instance_type = g.instance_type then g
    else
      { id := g.id
        instance_type := new_instance_type
        count := g.count
        market := g.market
        group_type := g.group_type }

/-- `group_cache`: every converted worker group is registered under its id
(the update runs for worker groups whether or not the type changed). -/
def buildGroupCache (mc_map : List (Option String × Option String)) :
    List InstanceGroup → List (String × InstanceGroup) →
    List (String × InstanceGroup)
  | [], cache => cache
  | g :: gs, cache =>
    if g.spark_grp_type = SparkNodeType.master then buildGroupCache mc_map gs cache
    else buildGroupCache mc_map gs (aupdate cache g.id (convertGroup mc_map g))

/-- The per-instance conversion inside the instance loop: the new instance
keeps id, EC2 id and state, clears `dns_name`, and points at the original
group (master) or the cached converted group (worker).  A worker instance
whose group id is missing from the cache gets a `None` group in the source,
which makes the subsequent node construction raise; that failure is modelled
as `none` here. -/
def convertInstance (cache : List (String × InstanceGroup))
    (i : Ec2Instance) : Option Ec2Instance :=
  if i.group.spark_grp_type = SparkNodeType.master then
    some { id := i.id, ec2_instance_id := i.ec2_instance_id, dns_name := none,
           group := i.group, state := i.state }
  else
    match alookup cache i.group.id with
    | some g =>
      some { id := i.id, ec2_instance_id := i.ec2_instance_id, dns_name := none,
             group := g, state := i.state }
    | none => none

/-- The instance loop of `migrate_from_cluster`, in order. -/
def convertInstances (cache : List (String × InstanceGroup)) :
    List Ec2Instance → Option (List Ec2Instance)
  | [] => some []
  | i :: is =>
    match convertInstance cache i, convertInstances cache is with
    | some y, some ys => some (y :: ys)
    | _, _ => none

/-- Node construction from one instance:
`EMRNode.create_node(ec2_inst.group.spark_grp_type)` with the instance
attached. -/
def mkNode (i : Ec2Instance) : EMRNode :=
  { node_type := i.group.spark_grp_type, ec2_instance := i }

/-- `EMRCluster.__create_node_from_instances`: build a node per instance,
partition by role, and take `master_nodes[0]` — an IndexError (modelled as
`none`) when no master-role node exists. -/
def createNodeFromInstances (insts : List Ec2Instance) : Option Nodes :=
  let ns := insts.map mkNode
  let worker_nodes := ns.filter (fun n => n.node_type = SparkNodeType.worker)
  let master_nodes := ns.filter (fun n => ¬ n.node_type = SparkNodeType.worker)
  match master_nodes with
  | [] => none
  | m :: _ => some { workers := worker_nodes, master := m }

/-- The outcome of one migration run: the new cluster, plus the change-report
passed to `update_ctxt_notes('nodeConversions', ...)` when `mc_type_map` is
non-empty (`none` when the notifier is not invoked). -/
structure MigrationResult where
  cluster : EMRCluster
  notification : Option (List (Option String × Option String))
deriving DecidableEq, Repr

/-- `EMRCluster.migrate_from_cluster`: copy the topology metadata, resolve
the type map once from the source's nodes, rebuild groups, instances, and
the node view, then notify when the map is non-empty.  A raised exception
anywhere in the run is modelled as `none`. -/
def migrate_from_cluster (orig : EMRCluster)
    (matcher : EMRNode → Option String) : Option MigrationResult :=
  let mc_type_map := orig.find_matches_for_node matcher
  let groups := orig.instance_groups.map (convertGroup mc_type_map)
  let cache := buildGroupCache mc_type_map orig.instance_groups []
  match convertInstances cache orig.ec2_instances with
  | none => none
  | some insts =>
    match createNodeFromInstances insts with
    | none => none
    | some nds =>
      some { cluster :=
               { name := orig.name, uuid := orig.uuid, zone := orig.zone,
                 state := orig.state, instance_groups := groups,
                 ec2_instances := insts, nodes := nds }
             notification :=
               if mc_type_map.isEmpty then none else some mc_type_map }

/-! ### `EmrSavingsEstimator`

Unit prices are exact rationals here; the catalog is an abstract capability
`category → instance_type → Option ℚ`, `none` meaning the catalog has no
entry (in the source, `JSONPropertiesContainer.get_value` raises). -/

/-- The accumulation loop of `EmrSavingsEstimator._get_cost_per_cluster`. -/
def costFold (catalog : String → Option String → Option ℚ) :
    List InstanceGroup → ℚ → Option ℚ
  | [], acc => some acc
  | g :: gs, acc =>
    match catalog "ec2" g.instance_type, catalog "emr" g.instance_type with
    | some ec2_unit_cost, some emr_unit_cost =>
      costFold catalog gs
        (acc + (emr_unit_cost * (g.count : ℚ) + ec2_unit_cost * (g.count : ℚ)))
    | _, _ => none

/-- `EmrSavingsEstimator._get_cost_per_cluster`. -/
def get_cost_per_cluster (catalog : String → Option String → Option ℚ)
    (cluster : EMRCluster) : Option ℚ :=
  costFold catalog cluster.instance_groups 0

/-- The pair of totals set by `EmrSavingsEstimator._setup_costs`. -/
structure SavingsCosts where
  target_cost : Option ℚ
  source_cost : Option ℚ
deriving DecidableEq, Repr

/-- `EmrSavingsEstimator._setup_costs`: each topology's total computed
independently. -/
def setup_costs (catalog : String → Option String → Option ℚ)
    (source_cluster target_cluster : EMRCluster) : SavingsCosts :=
  { target_cost := get_cost_per_cluster catalog target_cluster
    source_cost := get_cost_per_cluster catalog source_cluster }

/-! ### Concrete topologies and capabilities

The spec's running scenario: one master group (1 × `m5.xlarge`) and one
worker group (3 × `r5.2xlarge`), with one populated instance per group. -/

def gM : InstanceGroup :=
  ⟨"ig-1", some "m5.xlarge", 1, "ON_DEMAND", "MASTER"⟩

def gW : InstanceGroup :=
  ⟨"ig-2", some "r5.2xlarge", 3, "ON_DEMAND", "CORE"⟩

/-- The worker group after a successful `r5.2xlarge → g5.2xlarge` match. -/
def gW2 : InstanceGroup :=
  ⟨"ig-2", some "g5.2xlarge", 3, "ON_DEMAND", "CORE"⟩

/-- A worker group whose instance type has no price-catalog entry. -/
def gX : InstanceGroup :=
  ⟨"ig-3", some "x9.large", 2, "ON_DEMAND", "CORE"⟩

def iM : Ec2Instance :=
  ⟨"i-1", "ec2-1", some "master.host", gM, ClusterState.running⟩

def iW : Ec2Instance :=
  ⟨"i-2", "ec2-2", some "worker.host", gW, ClusterState.running⟩

/-- A second master-role instance (for the duplicate-master scenario). -/
def iM2 : Ec2Instance :=
  ⟨"i-9", "ec2-9", some "second.master", gM, ClusterState.running⟩

def nodes0 : Nodes := ⟨[mkNode iW], mkNode iM⟩

def C0 : EMRCluster :=
  ⟨some "c", some "j-123", some "us-east-1a", ClusterState.running,
   [gM, gW], [iM, iW], nodes0⟩

/-- A topology containing a group with an unpriced instance type. -/
def CX : EMRCluster :=
  ⟨some "x", some "j-999", some "us-east-1a", ClusterState.running,
   [gM, gX], [iM], ⟨[], mkNode iM⟩⟩

/-- A matcher signalling "no match" for every node. -/
def fNone : EMRNode → Option String := fun _ => none

/-- A matcher returning each node's own instance type (match equals source). -/
def fSame : EMRNode → Option String := fun n => n.instType

/-- A matcher mapping every worker to `g5.2xlarge`. -/
def fConv : EMRNode → Option String := fun _ => some "g5.2xlarge"

def iMm : Ec2Instance := ⟨"i-1", "ec2-1", none, gM, ClusterState.running⟩

def iWm : Ec2Instance := ⟨"i-2", "ec2-2", none, gW, ClusterState.running⟩

def iWc : Ec2Instance := ⟨"i-2", "ec2-2", none, gW2, ClusterState.running⟩

/-- `migrate_from_cluster C0 fSame`'s outcome. -/
def R1 : MigrationResult :=
  ⟨⟨some "c", some "j-123", some "us-east-1a", ClusterState.running,
    [gM, gW], [iMm, iWm], ⟨[mkNode iWm], mkNode iMm⟩⟩,
   some [(some "r5.2xlarge", some "r5.2xlarge")]⟩

/-- `migrate_from_cluster C0 fConv`'s outcome. -/
def R2 : MigrationResult :=
  ⟨⟨some "c", some "j-123", some "us-east-1a", ClusterState.running,
    [gM, gW2], [iMm, iWc], ⟨[mkNode iWc], mkNode iMm⟩⟩,
   some [(some "r5.2xlarge", some "g5.2xlarge")]⟩

/-- The spec's price catalog: base/surcharge (10, 2) for `m5.xlarge` and
(20, 5) for `r5.2xlarge`; everything else unpriced. -/
def catalog0 : String → Option String → Option ℚ := fun category t =>
  if category = "ec2" then
    if t = some "m5.xlarge" then some 10
    else if t = some "r5.2xlarge" then some 20
    else none
  else if category = "emr" then
    if t = some "m5.xlarge" then some 2
    else if t = some "r5.2xlarge" then some 5
    else none
  else none

def e0 : InstanceGroup → ℚ := fun g =>
  if g.instance_type = some "m5.xlarge" then 10 else 20

def w0 : InstanceGroup → ℚ := fun g =>
  if g.instance_type = some "m5.xlarge" then 2 else 5

/-! ### Association-list and memoization lemmas -/

/-- First occurrences of a key sequence, skipping keys already seen: the
order in which `find_matches_for_node` meets fresh instance types. -/
def newTypes {α : Type} [DecidableEq α] (seen : List α) : List α → List α
  | [] => []
  | k :: ks => if k ∈ seen then newTypes seen ks else k :: newTypes (k :: seen) ks

theorem alookup_isSome_iff {α β : Type} [DecidableEq α]
    (m : List (α × β)) (k : α) :
    (alookup m k).isSome ↔ k ∈ m.map Prod.fst := by
  induction m with
  | nil => simp [alookup]
  | cons kv rest ih =>
    obtain ⟨k0, v0⟩ := kv
    by_cases hk : k0 = k
    · subst hk; simp [alookup]
    · simp [alookup, hk, ih, Ne.symm hk]

theorem mem_keys_aupdate {α β : Type} [DecidableEq α]
    (m : List (α × β)) (k : α) (v : β) (x : α) :
    x ∈ (aupdate m k v).map Prod.fst ↔ x ∈ m.map Prod.fst ∨ x = k := by
  induction m with
  | nil => simp [aupdate]
  | cons kv rest ih =>
    obtain ⟨k0, v0⟩ := kv
    simp only [aupdate]
    by_cases hk : k0 = k
    · rw [if_pos hk]
      subst hk
      simp only [List.map_cons, List.mem_cons]
      tauto
    · rw [if_neg hk]
      simp only [List.map_cons, List.mem_cons, ih]
      tauto

theorem newTypes_congr {α : Type} [DecidableEq α] (l : List α) :
    ∀ s1 s2 : List α, (∀ x, x ∈ s1 ↔ x ∈ s2) → newTypes s1 l = newTypes s2 l := by
  induction l with
  | nil => intro s1 s2 _; rfl
  | cons k ks ih =>
    intro s1 s2 hb
    by_cases hk : k ∈ s1
    · simp [newTypes, hk, (hb k).mp hk, ih s1 s2 hb]
    · have hk2 : k ∉ s2 := fun h => hk ((hb k).mpr h)
      simp only [newTypes, if_neg hk, if_neg hk2]
      refine congrArg (k :: ·) (ih _ _ ?_)
      intro x; simp [hb x]

theorem mem_newTypes {α : Type} [DecidableEq α] (l : List α) :
    ∀ (seen : List α) (x : α), x ∈ newTypes seen l ↔ x ∈ l ∧ x ∉ seen := by
  induction l with
  | nil => intro seen x; simp [newTypes]
  | cons k ks ih =>
    intro seen x
    by_cases hk : k ∈ seen
    · simp only [newTypes, if_pos hk, ih, List.mem_cons]
      by_cases hxk : x = k
      · subst hxk; simp [hk]
      · simp [hxk]
    · simp only [newTypes, if_neg hk, List.mem_cons, ih]
      by_cases hxk : x = k
      · subst hxk; simp [hk]
      · simp [hxk]

theorem newTypes_nodup {α : Type} [DecidableEq α] (l : List α) :
    ∀ seen : List α, (newTypes seen l).Nodup := by
  induction l with
  | nil => intro seen; simp [newTypes]
  | cons k ks ih =>
    intro seen
    by_cases hk : k ∈ seen
    · simpa [newTypes, hk] using ih seen
    · simp only [newTypes, if_neg hk, List.nodup_cons]
      refine ⟨fun h => ?_, ih (k :: seen)⟩
      exact ((mem_newTypes ks (k :: seen) k).mp h).2 (List.mem_cons_self _ _)

theorem findMatchesAux_log_types (f : EMRNode → Option String) :
    ∀ (ns : List EMRNode) (acc : List (Option String × Option String)),
      ((findMatchesAux f ns acc).2).map EMRNode.instType =
        newTypes (acc.map Prod.fst) (ns.map EMRNode.instType) := by
  intro ns
  induction ns with
  | nil => intro acc; rfl
  | cons n rest ih =>
    intro acc
    by_cases h : (alookup acc n.instType).isSome
    · have hm : n.instType ∈ acc.map Prod.fst := (alookup_isSome_iff _ _).mp h
      simp only [findMatchesAux, if_pos h, List.map_cons, newTypes, if_pos hm]
      exact ih acc
    · have hm : n.instType ∉ acc.map Prod.fst := fun hmem =>
        h ((alookup_isSome_iff _ _).mpr hmem)
      simp only [findMatchesAux, if_neg h, List.map_cons, newTypes, if_neg hm]
      rw [ih]
      refine congrArg (n.instType :: ·) (newTypes_congr _ _ _ ?_)
      intro x
      rw [mem_keys_aupdate]
      simp only [List.mem_cons]
      tauto

theorem findMatchesAux_log_sub (f : EMRNode → Option String) :
    ∀ (ns : List EMRNode) (acc : List (Option String × Option String)),
      ∀ n ∈ (findMatchesAux f ns acc).2, n ∈ ns := by
  intro ns
  induction ns with
  | nil => intro acc n hn; simp [findMatchesAux] at hn
  | cons n0 rest ih =>
    intro acc n hn
    by_cases h : (alookup acc n0.instType).isSome
    · simp only [findMatchesAux, if_pos h] at hn
      exact List.mem_cons_of_mem _ (ih acc n hn)
    · simp only [findMatchesAux, if_neg h] at hn
      rcases List.mem_cons.mp hn with h0 | h0
      · exact h0 ▸ List.mem_cons_self _ _
      · exact List.mem_cons_of_mem _ (ih _ n h0)

theorem findMatchesAux_keys (f : EMRNode → Option String) :
    ∀ (ns : List EMRNode) (acc : List (Option String × Option String)) (k : Option String),
      k ∈ ((findMatchesAux f ns acc).1).map Prod.fst ↔
        k ∈ acc.map Prod.fst ∨ k ∈ ns.map EMRNode.instType := by
  intro ns
  induction ns with
  | nil => intro acc k; simp [findMatchesAux]
  | cons n rest ih =>
    intro acc k
    by_cases h : (alookup acc n.instType).isSome
    · have hm : n.instType ∈ acc.map Prod.fst := (alookup_isSome_iff _ _).mp h
      simp only [findMatchesAux, if_pos h, List.map_cons, List.mem_cons, ih]
      by_cases hk : k = n.instType
      · subst hk; tauto
      · tauto
    · simp only [findMatchesAux, if_neg h, List.map_cons, List.mem_cons, ih,
        mem_keys_aupdate]
      tauto

/-- **C1.** For every source topology, one migration run invokes the external
hardware matcher exactly once per distinct instance type among the worker-role
nodes: the submitted nodes carry pairwise distinct instance types covering
exactly the worker types, and every submitted node is a worker node. -/
theorem find_matches_memoized (c : EMRCluster) (f : EMRNode → Option String) :
    ((c.matcherCallLog f).map EMRNode.instType).Nodup ∧
    (∀ t, t ∈ (c.matcherCallLog f).map EMRNode.instType ↔
      t ∈ c.nodes.workers.map EMRNode.instType) ∧
    (∀ n ∈ c.matcherCallLog f, n ∈ c.nodes.workers) := by
  refine ⟨?_, ?_, ?_⟩
  · rw [EMRCluster.matcherCallLog, findMatchesAux_log_types]
    exact newTypes_nodup _ _
  · intro t
    rw [EMRCluster.matcherCallLog, findMatchesAux_log_types]
    simp [mem_newTypes]
  · intro n hn
    exact findMatchesAux_log_sub f c.nodes.workers [] n hn

/-! ### Migration lemmas -/

theorem migrate_eq_some (o : EMRCluster) (f : EMRNode → Option String)
    (res : MigrationResult) (h : migrate_from_cluster o f = some res) :
    res.cluster.name = o.name ∧ res.cluster.uuid = o.uuid ∧
    res.cluster.zone = o.zone ∧ res.cluster.state = o.state ∧
    res.cluster.instance_groups =
      o.instance_groups.map (convertGroup (o.find_matches_for_node f)) ∧
    convertInstances (buildGroupCache (o.find_matches_for_node f) o.instance_groups [])
      o.ec2_instances = some res.cluster.ec2_instances ∧
    res.notification = (if (o.find_matches_for_node f).isEmpty then none
      else some (o.find_matches_for_node f)) := by
  simp only [migrate_from_cluster] at h
  cases hci : convertInstances
      (buildGroupCache (o.find_matches_for_node f) o.instance_groups [])
      o.ec2_instances with
  | none => rw [hci] at h; exact absurd h (by simp)
  | some insts =>
    rw [hci] at h
    dsimp only at h
    cases hcn : createNodeFromInstances insts with
    | none => rw [hcn] at h; exact absurd h (by simp)
    | some nds =>
      rw [hcn] at h
      dsimp only at h
      cases res with
      | mk cl ntf =>
        injection h with h
        injection h with h1 h2
        subst h1; subst h2
        exact ⟨rfl, rfl, rfl, rfl, rfl, rfl, rfl⟩

theorem convertInstances_getElem? (cache : List (String × InstanceGroup)) :
    ∀ (l l' : List Ec2Instance), convertInstances cache l = some l' →
      ∀ j : ℕ, l'[j]? = (l[j]?).bind (convertInstance cache) := by
  intro l
  induction l with
  | nil =>
    intro l' h j
    simp only [convertInstances] at h
    injection h with h
    subst h
    simp
  | cons i is ih =>
    intro l' h j
    simp only [convertInstances] at h
    cases hy : convertInstance cache i with
    | none => rw [hy] at h; exact absurd h (by simp)
    | some y =>
      rw [hy] at h
      cases hys : convertInstances cache is with
      | none => rw [hys] at h; exact absurd h (by simp)
      | some ys =>
        rw [hys] at h
        injection h with h
        subst h
        cases j with
        | zero => simp [hy]
        | succ j => simpa using ih ys hys j

theorem convertInstances_length (cache : List (String × InstanceGroup)) :
    ∀ (l l' : List Ec2Instance), convertInstances cache l = some l' →
      l'.length = l.length := by
  intro l
  induction l with
  | nil =>
    intro l' h
    simp only [convertInstances] at h
    injection h with h
    subst h; rfl
  | cons i is ih =>
    intro l' h
    simp only [convertInstances] at h
    cases hy : convertInstance cache i with
    | none => rw [hy] at h; exact absurd h (by simp)
    | some y =>
      rw [hy] at h
      cases hys : convertInstances cache is with
      | none => rw [hys] at h; exact absurd h (by simp)
      | some ys =>
        rw [hys] at h
        injection h with h
        subst h
        simp [ih ys hys]

theorem convertInstance_fields (cache : List (String × InstanceGroup))
    (x y : Ec2Instance) (h : convertInstance cache x = some y) :
    y.dns_name = none ∧ y.id = x.id ∧ y.ec2_instance_id = x.ec2_instance_id ∧
    y.state = x.state := by
  unfold convertInstance at h
  by_cases hm : x.group.spark_grp_type = SparkNodeType.master
  · rw [if_pos hm] at h
    injection h with h
    subst h
    exact ⟨rfl, rfl, rfl, rfl⟩
  · rw [if_neg hm] at h
    cases hg : alookup cache x.group.id with
    | none => rw [hg] at h; exact absurd h (by simp)
    | some g =>
      rw [hg] at h
      injection h with h
      subst h
      exact ⟨rfl, rfl, rfl, rfl⟩

/-- **C10.** Migration preserves the topology-level metadata: the migrated
topology's name, uuid, zone, and lifecycle state equal the source's. -/
theorem migrate_preserves_metadata (o : EMRCluster) (f : EMRNode → Option String)
    (res : MigrationResult) (h : migrate_from_cluster o f = some res) :
    res.cluster.name = o.name ∧ res.cluster.uuid = o.uuid ∧
    res.cluster.zone = o.zone ∧ res.cluster.state = o.state := by
  obtain ⟨h1, h2, h3, h4, -, -, -⟩ := migrate_eq_some o f res h
  exact ⟨h1, h2, h3, h4⟩

theorem migrate_preserves_metadata_witness :
    R2.cluster.name = C0.name ∧ R2.cluster.uuid = C0.uuid ∧
    R2.cluster.zone = C0.zone ∧ R2.cluster.state = C0.state :=
  migrate_preserves_metadata C0 fConv R2 (by decide)

/-- **C5.** Every instance of a migrated topology has its address cleared to
absent while its primary id, secondary provider id, and lifecycle state equal
those of the corresponding source instance (and the instance count is
preserved). -/
theorem migrate_clears_addresses (o : EMRCluster) (f : EMRNode → Option String)
    (res : MigrationResult) (h : migrate_from_cluster o f = some res) :
    res.cluster.ec2_instances.length = o.ec2_instances.length ∧
    ∀ (j : ℕ) (x : Ec2Instance), o.ec2_instances[j]? = some x →
      (res.cluster.ec2_instances[j]?).map
        (fun y => (y.dns_name, y.id, y.ec2_instance_id, y.state)) =
      some (none, x.id, x.ec2_instance_id, x.state) := by
  obtain ⟨-, -, -, -, -, hci, -⟩ := migrate_eq_some o f res h
  refine ⟨convertInstances_length _ _ _ hci, ?_⟩
  intro j x hx
  have hj := convertInstances_getElem? _ _ _ hci j
  rw [hx] at hj
  simp only [Option.some_bind] at hj
  obtain ⟨hlt, -⟩ := List.getElem?_eq_some.mp hx
  cases hy : convertInstance
      (buildGroupCache (o.find_matches_for_node f) o.instance_groups [])
      x with
  | none =>
    rw [hy] at hj
    have hlen := convertInstances_length _ _ _ hci
    have := List.getElem?_eq_none_iff.mp hj
    omega
  | some y =>
    rw [hy] at hj
    rw [hj]
    obtain ⟨f1, f2, f3, f4⟩ := convertInstance_fields _ _ _ hy
    simp [f1, f2, f3, f4]

theorem migrate_clears_addresses_witness :
    R2.cluster.ec2_instances.length = C0.ec2_instances.length ∧
    ∀ (j : ℕ) (x : Ec2Instance), C0.ec2_instances[j]? = some x →
      (R2.cluster.ec2_instances[j]?).map
        (fun y => (y.dns_name, y.id, y.ec2_instance_id, y.state)) =
      some (none, x.id, x.ec2_instance_id, x.state) :=
  migrate_clears_addresses C0 fConv R2 (by decide)

/-- **C4 (amended).** Master-role groups are carried over by reference
(value-identical at the same position); master-role instances are rebuilt
field-identical except that their network address is cleared to absent — in
particular they keep the same group reference, so only worker-role entries
can change instance type. -/
theorem migrate_master_entries (o : EMRCluster) (f : EMRNode → Option String)
    (res : MigrationResult) (h : migrate_from_cluster o f = some res) :
    (∀ (i : ℕ) (g : InstanceGroup), o.instance_groups[i]? = some g →
       g.spark_grp_type = SparkNodeType.master →
       res.cluster.instance_groups[i]? = some g) ∧
    (∀ (j : ℕ) (x : Ec2Instance), o.ec2_instances[j]? = some x →
       x.group.spark_grp_type = SparkNodeType.master →
       res.cluster.ec2_instances[j]? = some
         { id := x.id, ec2_instance_id := x.ec2_instance_id, dns_name := none,
           group := x.group, state := x.state }) := by
  obtain ⟨-, -, -, -, hgr, hci, -⟩ := migrate_eq_some o f res h
  constructor
  · intro i g hg hm
    rw [hgr, List.getElem?_map, hg]
    simp only [Option.map_some']
    rw [convertGroup, if_pos hm]
  · intro j x hx hm
    have hj := convertInstances_getElem? _ _ _ hci j
    rw [hx] at hj
    simp only [Option.some_bind] at hj
    rw [hj, convertInstance, if_pos hm]

theorem migrate_master_entries_witness :
    (∀ (i : ℕ) (g : InstanceGroup), C0.instance_groups[i]? = some g →
       g.spark_grp_type = SparkNodeType.master →
       R2.cluster.instance_groups[i]? = some g) ∧
    (∀ (j : ℕ) (x : Ec2Instance), C0.ec2_instances[j]? = some x →
       x.group.spark_grp_type = SparkNodeType.master →
       R2.cluster.ec2_instances[j]? = some
         { id := x.id, ec2_instance_id := x.ec2_instance_id, dns_name := none,
           group := x.group, state := x.state }) :=
  migrate_master_entries C0 fConv R2 (by decide)

/-- **C4 counterexample.** The source master instance carries an address, so
the rebuilt master instance (address cleared) is neither reference- nor
field-identical to it, refuting the claim as stated. -/
theorem migrate_master_instance_not_identical :
    C0.ec2_instances[0]? = some iM ∧
    iM.group.spark_grp_type = SparkNodeType.master ∧
    (migrate_from_cluster C0 fConv).map (fun r => r.cluster.ec2_instances[0]?) =
      some (some iMm) ∧
    iMm ≠ iM := by decide

/-- **C2 (amended).** For a worker-role group whose resolved type
(`mc_type_map.get(t, t)`) equals its current type — the matcher returned the
same type, or the type was never resolved — migration carries the group over
unchanged.  But when the matcher signalled "no match" (a `None` entry in the
map), migration instead creates a new group with the same id, count, market
and label whose instance type is absent. -/
theorem migrate_worker_group_change (o : EMRCluster) (f : EMRNode → Option String)
    (res : MigrationResult) (h : migrate_from_cluster o f = some res)
    (i : ℕ) (g : InstanceGroup) (hg : o.instance_groups[i]? = some g)
    (hw : g.spark_grp_type = SparkNodeType.worker) :
    (agetD (o.find_matches_for_node f) g.instance_type g.instance_type =
        g.instance_type →
      res.cluster.instance_groups[i]? = some g) ∧
    (alookup (o.find_matches_for_node f) g.instance_type = some none →
      g.instance_type ≠ none →
      res.cluster.instance_groups[i]? = some
        { id := g.id, instance_type := none, count := g.count,
          market := g.market, group_type := g.group_type }) := by
  obtain ⟨-, -, -, -, hgr, -, -⟩ := migrate_eq_some o f res h
  have hmaster : ¬ g.spark_grp_type = SparkNodeType.master := by
    rw [hw]; intro hc; exact SparkNodeType.noConfusion hc
  have hcg : convertGroup (o.find_matches_for_node f) g =
      if agetD (o.find_matches_for_node f) g.instance_type g.instance_type
          = g.instance_type then g
      else
        { id := g.id
          instance_type := agetD (o.find_matches_for_node f) g.instance_type
            g.instance_type
          count := g.count, market := g.market, group_type := g.group_type } := by
    rw [convertGroup, if_neg hmaster]
  constructor
  · intro heq
    rw [hgr, List.getElem?_map, hg]
    simp only [Option.map_some']
    rw [hcg, if_pos heq]
  · intro hnone hnn
    have hres : agetD (o.find_matches_for_node f) g.instance_type g.instance_type
        = none := by
      rw [agetD, hnone]; rfl
    have hne : ¬ agetD (o.find_matches_for_node f) g.instance_type g.instance_type
        = g.instance_type := by
      rw [hres]; intro hc; exact hnn hc.symm
    rw [hgr, List.getElem?_map, hg]
    simp only [Option.map_some']
    rw [hcg, if_neg hne, hres]

theorem migrate_worker_group_change_witness :
    (agetD (C0.find_matches_for_node fSame) gW.instance_type gW.instance_type =
        gW.instance_type →
      R1.cluster.instance_groups[1]? = some gW) ∧
    (alookup (C0.find_matches_for_node fSame) gW.instance_type = some none →
      gW.instance_type ≠ none →
      R1.cluster.instance_groups[1]? = some
        { id := gW.id, instance_type := none, count := gW.count,
          market := gW.market, group_type := gW.group_type }) :=
  migrate_worker_group_change C0 fSame R1 (by decide) 1 gW (by decide) (by decide)

/-- **C2 counterexample.** When the matcher signals "no match" (`None`) for
the worker type, the source code computes `mc_type_map.get(t, t) = None ≠ t`
and builds a replacement group whose instance type is absent: the worker
group is not carried over unchanged, and a group with a null instance type
is created. -/
theorem migrate_no_match_null_group :
    fNone (mkNode iW) = none ∧
    (migrate_from_cluster C0 fNone).map
        (fun r => r.cluster.instance_groups.map (fun g => g.instance_type)) =
      some [some "m5.xlarge", none] := by decide

/-- **C3 (amended).** The change-report passed to the notifier is the full
resolution map: it holds an entry for every distinct instance type among the
source worker nodes — including types whose resolution equals the source
type and types that found no match — and the notifier is invoked iff the
source topology has at least one worker node, not iff some type changed. -/
theorem migration_notification_content (o : EMRCluster)
    (f : EMRNode → Option String) (res : MigrationResult)
    (h : migrate_from_cluster o f = some res) :
    (res.notification = none ↔ o.nodes.workers = []) ∧
    (∀ m, res.notification = some m →
      ∀ t, (alookup m t).isSome ↔ t ∈ o.nodes.workers.map EMRNode.instType) := by
  obtain ⟨-, -, -, -, -, -, hn⟩ := migrate_eq_some o f res h
  have hkeys : ∀ t, (alookup (o.find_matches_for_node f) t).isSome ↔
      t ∈ o.nodes.workers.map EMRNode.instType := by
    intro t
    rw [alookup_isSome_iff, EMRCluster.find_matches_for_node, findMatchesAux_keys]
    simp
  have hempty : o.find_matches_for_node f = [] ↔ o.nodes.workers = [] := by
    constructor
    · intro he
      cases hws : o.nodes.workers with
      | nil => rfl
      | cons n rest =>
        have hmem := (hkeys n.instType).mpr (by rw [hws]; simp)
        rw [he] at hmem
        simp [alookup] at hmem
    · intro hws
      rw [EMRCluster.find_matches_for_node, hws]
      rfl
  constructor
  · rw [hn]
    cases hl : o.find_matches_for_node f with
    | nil =>
      simp only [List.isEmpty_nil, if_true]
      simp [hempty.mp hl]
    | cons p ps =>
      have : ¬ o.nodes.workers = [] := fun hws => by
        rw [hempty.mpr hws] at hl
        exact List.noConfusion hl
      simp [this]
  · intro m hm t
    rw [hn] at hm
    cases hl : o.find_matches_for_node f with
    | nil => rw [hl] at hm; simp at hm
    | cons p ps =>
      rw [hl] at hm
      simp only [List.isEmpty_cons, if_false] at hm
      injection hm with hm
      subst hm
      rw [← hl]
      exact hkeys t

theorem migration_notification_content_witness :
    (R1.notification = none ↔ C0.nodes.workers = []) ∧
    (∀ m, R1.notification = some m →
      ∀ t, (alookup m t).isSome ↔ t ∈ C0.nodes.workers.map EMRNode.instType) :=
  migration_notification_content C0 fSame R1 (by decide)

/-- **C3 counterexample.** With a matcher that returns each worker type
unchanged, no group's instance type changes, yet the change-report is
non-empty (it records the identity resolution) and the notifier is
invoked. -/
theorem notification_fires_without_change :
    (migrate_from_cluster C0 fSame).map
        (fun r => (r.cluster.instance_groups, r.notification)) =
      some ([gM, gW], some [(some "r5.2xlarge", some "r5.2xlarge")]) := by decide

/-! ### Cost-estimator lemmas -/

theorem costFold_eq (catalog : String → Option String → Option ℚ)
    (e w : InstanceGroup → ℚ) :
    ∀ (gs : List InstanceGroup) (acc : ℚ),
      (∀ g ∈ gs, catalog "ec2" g.instance_type = some (e g)) →
      (∀ g ∈ gs, catalog "emr" g.instance_type = some (w g)) →
      costFold catalog gs acc =
        some (acc + (gs.map (fun g => (e g + w g) * (g.count : ℚ))).sum) := by
  intro gs
  induction gs with
  | nil => intro acc _ _; simp [costFold]
  | cons g gs ih =>
    intro acc he hw
    rw [costFold, he g (List.mem_cons_self _ _), hw g (List.mem_cons_self _ _)]
    dsimp only
    rw [ih _ (fun g' hg' => he g' (List.mem_cons_of_mem _ hg'))
          (fun g' hg' => hw g' (List.mem_cons_of_mem _ hg'))]
    simp only [List.map_cons, List.sum_cons]
    congr 1
    ring

theorem costFold_none (catalog : String → Option String → Option ℚ) :
    ∀ gs : List InstanceGroup,
      (∃ g ∈ gs, catalog "ec2" g.instance_type = none ∨
        catalog "emr" g.instance_type = none) →
      ∀ acc : ℚ, costFold catalog gs acc = none := by
  intro gs
  induction gs with
  | nil => rintro ⟨g, hg, -⟩; simp at hg
  | cons g gs ih =>
    rintro ⟨g0, hg0, hcase⟩ acc
    rw [costFold]
    rcases List.mem_cons.mp hg0 with rfl | hmem
    · rcases hcase with hc | hc
      · rw [hc]
      · rw [hc]
        cases catalog "ec2" g0.instance_type <;> rfl
    · cases h1 : catalog "ec2" g.instance_type with
      | none => rfl
      | some u1 =>
        cases h2 : catalog "emr" g.instance_type with
        | none => rfl
        | some u2 => exact ih ⟨g0, hmem, hcase⟩ _

/-- **C6.** When the price catalog defines both unit costs for every instance
type present, the total equals the sum over every group (master and worker
alike) of (base unit cost + service surcharge unit cost) × requested count;
and comparing two topologies computes each total independently and returns
both. -/
theorem total_cost_additive (catalog : String → Option String → Option ℚ)
    (c c' : EMRCluster) (e w : InstanceGroup → ℚ)
    (he : ∀ g ∈ c.instance_groups, catalog "ec2" g.instance_type = some (e g))
    (hw : ∀ g ∈ c.instance_groups, catalog "emr" g.instance_type = some (w g)) :
    get_cost_per_cluster catalog c =
      some ((c.instance_groups.map
        (fun g => (e g + w g) * (g.count : ℚ))).sum) ∧
    setup_costs catalog c c' =
      { target_cost := get_cost_per_cluster catalog c'
        source_cost := get_cost_per_cluster catalog c } := by
  refine ⟨?_, rfl⟩
  rw [get_cost_per_cluster, costFold_eq catalog e w _ 0 he hw, zero_add]

theorem total_cost_additive_witness :
    get_cost_per_cluster catalog0 C0 =
      some ((C0.instance_groups.map
        (fun g => (e0 g + w0 g) * (g.count : ℚ))).sum) ∧
    setup_costs catalog0 C0 C0 =
      { target_cost := get_cost_per_cluster catalog0 C0
        source_cost := get_cost_per_cluster catalog0 C0 } :=
  total_cost_additive catalog0 C0 C0 e0 w0 (by decide) (by decide)

/-- **C7.** When some group's instance type has no price-catalog entry for
the base-compute or service-surcharge category, cost computation returns no
total: the missing entry is never treated as a zero unit cost. -/
theorem missing_price_aborts (catalog : String → Option String → Option ℚ)
    (c : EMRCluster)
    (h : ∃ g ∈ c.instance_groups, catalog "ec2" g.instance_type = none ∨
      catalog "emr" g.instance_type = none) :
    get_cost_per_cluster catalog c = none := by
  rw [get_cost_per_cluster]
  exact costFold_none catalog c.instance_groups h 0

theorem missing_price_aborts_witness : get_cost_per_cluster catalog0 CX = none :=
  missing_price_aborts catalog0 CX (by decide)

/-- **C8 (amended).** Building the role-partitioned node view signals a
fatal error exactly when no master-role node exists; with one or more
master-role nodes it succeeds, taking the first master-role node as the
master and all worker-role nodes (in order) as the workers — more than one
master-role node is not rejected. -/
theorem create_node_master_selection (insts : List Ec2Instance) :
    (createNodeFromInstances insts = none ↔
      (insts.map mkNode).filter
        (fun n => ¬ n.node_type = SparkNodeType.worker) = []) ∧
    createNodeFromInstances insts =
      ((insts.map mkNode).filter
          (fun n => ¬ n.node_type = SparkNodeType.worker)).head?.map
        (fun m =>
          { workers := (insts.map mkNode).filter
              (fun n => n.node_type = SparkNodeType.worker)
            master := m }) := by
  rw [createNodeFromInstances]
  cases hm : (insts.map mkNode).filter
      (fun n => ¬ n.node_type = SparkNodeType.worker) with
  | nil => exact ⟨by simp, rfl⟩
  | cons m ms =>
    refine ⟨?_, rfl⟩
    constructor
    · intro hc; exact absurd hc (by simp)
    · intro hc; exact List.noConfusion hc

/-- **C8 counterexample.** A collection with two master-role instances is
not rejected: node construction succeeds, silently using the first master
node. -/
theorem duplicate_master_no_error :
    iM.group.spark_grp_type = SparkNodeType.master ∧
    iM2.group.spark_grp_type = SparkNodeType.master ∧
    createNodeFromInstances [iM, iM2] =
      some { workers := [], master := mkNode iM } := by decide

/-- **C9.** The role classifier is total on label strings and rejects none:
it returns master exactly on the closed variant set (the uppercased label
`MASTER`) and worker on every other label, so new worker-tier labels need no
classifier change. -/
theorem role_classifier_total (value : String) :
    (EMRPlatform.get_spark_node_type_fromstring value = SparkNodeType.master ↔
      pyUpper value = "MASTER") ∧
    (EMRPlatform.get_spark_node_type_fromstring value = SparkNodeType.worker ↔
      ¬ pyUpper value = "MASTER") := by
  rw [EMRPlatform.get_spark_node_type_fromstring]
  by_cases hin : pyUpper value ∈ (["TASK", "CORE"] : List String)
  · rw [if_pos hin]
    have hne : ¬ pyUpper value = "MASTER" := by
      rcases List.mem_cons.mp hin with h | h
      · rw [h]; intro hc; exact absurd hc (by decide)
      · rcases List.mem_cons.mp h with h | h
        · rw [h]; intro hc; exact absurd hc (by decide)
        · simp at h
    constructor
    · constructor
      · intro hc; exact absurd hc (by decide)
      · intro hc; exact absurd hc hne
    · constructor
      · intro _; exact hne
      · intro _; rfl
  · rw [if_neg hin, SparkNodeType.fromstring]
    by_cases hmm : pyUpper value = "MASTER"
    · rw [if_pos hmm]
      constructor
      · exact ⟨fun _ => hmm, fun _ => rfl⟩
      · constructor
        · intro hc; exact absurd hc (by decide)
        · intro hc; exact absurd hmm hc
    · rw [if_neg hmm]
      constructor
      · constructor
        · intro hc; exact absurd hc (by decide)
        · intro hc; exact absurd hc hmm
      · exact ⟨fun _ => hmm, fun _ => rfl⟩
